import Mathlib

/-!
Verification of the advanced-metrics derivation pipeline of
`src/analysis/player_stats.py` (class `PlayerStatsCollector`): numeric
coercion and zero-fill, the per-record derived metrics, and the column
projection with the descending date sort of `get_player_stats`.

Modelling conventions.  Machine floats are modelled as exact rationals;
the IEEE non-finite values that the single unguarded division
(`USG_RATE`, line 206) can produce are modelled by the dedicated type
`PFloat`.  A pandas DataFrame is modelled as a list of rows together
with the list of column names actually present; reading an absent column
(`df['C']`) raises `KeyError`, which the `try/except` of
`calculate_advanced_metrics` turns into "return the original input",
while the same error inside `get_player_stats`' sort is uncaught.
-/

namespace PlayerStats

/-- A raw cell of a game-log column: a numeric value, a string (e.g.
minutes given as "MM:SS"), or a missing value (pandas `NaN`). -/
inductive Cell where
  | num (q : ℚ)
  | str (s : String)
  | nan
deriving DecidableEq

/-- Result of a pandas float division that is not guarded against a zero
denominator: a finite value, `inf`, `-inf`, or `NaN`. -/
inductive PFloat where
  | fin (q : ℚ)
  | pinf
  | ninf
  | nan
deriving DecidableEq

/-- Pandas element-wise division of finite floats: `x / 0` is `inf` or
`-inf` according to the sign of `x`, and `0 / 0` is `NaN`. -/
def pdiv (n d : ℚ) : PFloat :=
  if d = 0 then (if 0 < n then .pinf else if n < 0 then .ninf else .nan)
  else .fin (n / d)

/-- Value of a decimal digit list, most significant first. -/
def natOfDigits (cs : List Char) : Nat :=
  cs.foldl (fun n c => 10 * n + (c.toNat - 48)) 0

/-- Whether every character is a decimal digit. -/
def allDigits (cs : List Char) : Bool :=
  cs.all (fun c => c.isDigit)

/-- Split a character list at every occurrence of `c` (the model of
Python `str.split`). -/
def splitOnChar (c : Char) : List Char → List (List Char)
  | [] => [[]]
  | x :: xs =>
    if x = c then [] :: splitOnChar c xs
    else
      match splitOnChar c xs with
      | [] => [[x]]
      | h :: t => (x :: h) :: t

/-- Strip surrounding spaces (Python `float` and `pd.to_numeric` both
tolerate surrounding whitespace). -/
def stripSpaces (cs : List Char) : List Char :=
  ((cs.dropWhile (fun c => c = ' ')).reverse.dropWhile (fun c => c = ' ')).reverse

/-- Parse an unsigned decimal body already split at the decimal point. -/
def parseUnsigned : List (List Char) → Option ℚ
  | [w] => if allDigits w && !w.isEmpty then some ((natOfDigits w : ℚ)) else none
  | [w, f] =>
    if allDigits w && allDigits f && !(w.isEmpty && f.isEmpty) then
      some ((natOfDigits w : ℚ) + (natOfDigits f : ℚ) / ((10 : ℚ) ^ f.length))
    else none
  | _ => none

/-- Numeric-string parsing shared by `pd.to_numeric` and Python `float`:
optional sign, then decimal digits with an optional fractional part
("15", "-3", "32.5", "5.", ".5").  Scientific notation is not needed by
any input of interest and is not modelled.  Anything else — in
particular the "MM:SS" minutes strings — fails to parse. -/
def parseFloatChars (cs : List Char) : Option ℚ :=
  match stripSpaces cs with
  | '-' :: rest => (parseUnsigned (splitOnChar '.' rest)).map (fun q => -q)
  | '+' :: rest => parseUnsigned (splitOnChar '.' rest)
  | body => parseUnsigned (splitOnChar '.' body)

/-- String version of `parseFloatChars`. -/
def parseFloatQ (s : String) : Option ℚ :=
  parseFloatChars s.toList

/-- One cell under `pd.to_numeric(df[col], errors='coerce')` (line 149):
numbers survive, parsable numeric strings are converted, anything else
becomes `NaN`. -/
def toNumericCell : Cell → Cell
  | .num q => .num q
  | .str s =>
    match parseFloatQ s with
    | some q => .num q
    | none => .nan
  | .nan => .nan

/-- One cell under `df.fillna(0)` (line 154). -/
def fillCell : Cell → Cell
  | .nan => .num 0
  | c => c

/-- One row of the game-log DataFrame.  `gameDate` is the sort key of
the final projection, encoded as an integer date key (e.g. `20240105`
for 2024-01-05); `GAME_DATE` and `GAME_ID` are never numerically
coerced by the pipeline.  The derived fields at the end are meaningful
only once the corresponding derived column has been added: column
presence is tracked by `Batch.cols`, and a field whose column is absent
is never observable through the pipeline. -/
structure Row where
  gameDate : Int := 0
  gameId : String := ""
  min : Cell := .nan
  fgm : Cell := .nan
  fga : Cell := .nan
  fg3m : Cell := .nan
  fg3a : Cell := .nan
  ftm : Cell := .nan
  fta : Cell := .nan
  oreb : Cell := .nan
  dreb : Cell := .nan
  reb : Cell := .nan
  ast : Cell := .nan
  stl : Cell := .nan
  blk : Cell := .nan
  tov : Cell := .nan
  pf : Cell := .nan
  pts : Cell := .nan
  plusMinus : Cell := .nan
  minutesPlayed : ℚ := 0
  fgPct : ℚ := 0
  tsPct : ℚ := 0
  ptsPerMin : ℚ := 0
  poss : ℚ := 0
  offRating : ℚ := 0
  defRating : ℚ := 0
  gameScore : ℚ := 0
  usgRate : PFloat := .fin 0
  astToRatio : ℚ := 0
deriving DecidableEq

/-- A DataFrame: the column names actually present, plus the rows. -/
structure Batch where
  cols : List String
  rows : List Row
deriving DecidableEq

/-- The columns coerced by the numeric-conversion loop (lines 143-145). -/
def numericCols : List String :=
  ["MIN", "FGM", "FGA", "FG3M", "FG3A", "FTM", "FTA",
   "OREB", "DREB", "REB", "AST", "STL", "BLK", "TOV", "PF", "PTS", "PLUS_MINUS"]

/-- The numeric-conversion loop (lines 147-151) followed by `fillna(0)`
(line 154), on the cell of column `name`: a present column is coerced
and zero-filled; an absent column is only warned about — it holds no
data, so its (unobservable) field is left untouched. -/
def coerceIf (cols : List String) (name : String) (c : Cell) : Cell :=
  if cols.contains name then fillCell (toNumericCell c) else c

/-- Coercion and zero-fill applied to every numeric column of one row. -/
def coerceRow (cols : List String) (r : Row) : Row :=
  { r with
    min := coerceIf cols "MIN" r.min
    fgm := coerceIf cols "FGM" r.fgm
    fga := coerceIf cols "FGA" r.fga
    fg3m := coerceIf cols "FG3M" r.fg3m
    fg3a := coerceIf cols "FG3A" r.fg3a
    ftm := coerceIf cols "FTM" r.ftm
    fta := coerceIf cols "FTA" r.fta
    oreb := coerceIf cols "OREB" r.oreb
    dreb := coerceIf cols "DREB" r.dreb
    reb := coerceIf cols "REB" r.reb
    ast := coerceIf cols "AST" r.ast
    stl := coerceIf cols "STL" r.stl
    blk := coerceIf cols "BLK" r.blk
    tov := coerceIf cols "TOV" r.tov
    pf := coerceIf cols "PF" r.pf
    pts := coerceIf cols "PTS" r.pts
    plusMinus := coerceIf cols "PLUS_MINUS" r.plusMinus }

/-- The minutes-parsing lambda (lines 157-159):
`float(x.split(':')[0]) + float(x.split(':')[1]) / 60` when `x` is a
string containing a colon, else `float(x)`; `float` raises `ValueError`
on an unparsable string, and `float(nan)` is `nan`. -/
def minutesLambda : Cell → Except String Cell
  | .str s =>
    if (s.toList).contains ':' then
      match splitOnChar ':' s.toList with
      | p0 :: p1 :: _ =>
        match parseFloatChars p0, parseFloatChars p1 with
        | some a, some b => .ok (.num (a + b / 60))
        | _, _ => .error "ValueError"
      | _ => .error "ValueError"
    else
      match parseFloatQ s with
      | some q => .ok (.num q)
      | none => .error "ValueError"
  | .num q => .ok (.num q)
  | .nan => .ok .nan

/-- Numeric reading of a cell; after coercion and zero-fill every cell
of a present numeric column is `Cell.num`, so the fallback arm is never
reached by the pipeline. -/
def cellNum : Cell → ℚ
  | .num q => q
  | _ => 0

/-- One row of the `df['MINUTES_PLAYED'] = df['MIN'].apply(...)`
assignment (line 157): the lambda applied to the already-coerced `MIN`
cell. -/
def minutesStep (r : Row) : Except String Row :=
  match minutesLambda r.min with
  | .ok c => .ok { r with minutesPlayed := cellNum c }
  | .error e => .error e

/-- Lines 162-211: the per-row derived metrics.  Each
`np.where(guard, x, 0)` keeps `x` where the guard holds and the fallback
elsewhere; `USG_RATE` (line 206) divides with no guard, the one place a
non-finite float can appear. -/
def deriveRow (r : Row) : Row :=
  let fgm := cellNum r.fgm
  let fga := cellNum r.fga
  let ftm := cellNum r.ftm
  let fta := cellNum r.fta
  let oreb := cellNum r.oreb
  let dreb := cellNum r.dreb
  let ast := cellNum r.ast
  let stl := cellNum r.stl
  let blk := cellNum r.blk
  let tov := cellNum r.tov
  let pf := cellNum r.pf
  let pts := cellNum r.pts
  let pm := cellNum r.plusMinus
  let m := r.minutesPlayed
  let poss := fga - oreb + tov + (0.44 : ℚ) * fta
  { r with
    fgPct := if 0 < fga then fgm / fga else 0
    tsPct := if 0 < fga + (0.44 : ℚ) * fta then pts / (2 * (fga + (0.44 : ℚ) * fta)) else 0
    ptsPerMin := if 0 < m then pts / m else 0
    poss := poss
    offRating := if 0 < poss then 100 * (pts + (1.5 : ℚ) * ast) / poss else 0
    defRating := if 0 < m then 100 - (5 * (stl + blk) - pf - pm) / m else 0
    gameScore := pts + (0.4 : ℚ) * fgm - (0.7 : ℚ) * fga - (0.4 : ℚ) * (fta - ftm)
      + (0.7 : ℚ) * oreb + (0.3 : ℚ) * dreb + stl + (0.7 : ℚ) * ast
      + (0.7 : ℚ) * blk - (0.4 : ℚ) * pf - tov
    usgRate := pdiv (100 * (fga + (0.44 : ℚ) * fta + tov)) poss
    astToRatio := if 0 < tov then ast / tov else ast }

/-- Derived columns added by `calculate_advanced_metrics`, in assignment
order. -/
def derivedCols : List String :=
  ["MINUTES_PLAYED", "FG_PCT", "TS_PCT", "PTS_PER_MIN", "POSS",
   "OFF_RATING", "DEF_RATING", "GAME_SCORE", "USG_RATE", "AST_TO_RATIO"]

/-- Column assignment `df[c] = ...`: appends the column unless it is
already present (the game-log schema already has e.g. `FG_PCT`). -/
def addCol (cols : List String) (c : String) : List String :=
  if cols.contains c then cols else cols ++ [c]

/-- The base columns read by the metric formulas after `MIN`, in order
of first access (lines 162-211); reading an absent one raises
`KeyError`. -/
def laterBaseCols : List String :=
  ["FGA", "FGM", "FTA", "PTS", "OREB", "TOV", "AST",
   "STL", "BLK", "PF", "PLUS_MINUS", "FTM", "DREB"]

/-- All base columns whose absence makes the whole-batch derivation
raise (`FG3M`, `FG3A` and `REB` are coerced but never read). -/
def requiredCols : List String := "MIN" :: laterBaseCols

/-- `df[c]` for each listed column in turn: `KeyError` at the first
absent one.  Only the set of missing columns is observable, because the
`except` handler discards everything on any error. -/
def requireAll (cols : List String) : List String → Except String Unit
  | [] => .ok ()
  | c :: rest =>
    if cols.contains c then requireAll cols rest
    else .error ("KeyError: " ++ c)

/-- The body of the `try` block of `calculate_advanced_metrics`
(lines 141-213): numeric coercion and zero-fill, the `MINUTES_PLAYED`
parse, then every derived metric, with any `KeyError`/`ValueError`
escaping as `.error`. -/
def enrichTry (b : Batch) : Except String Batch :=
  match requireAll b.cols ["MIN"] with
  | .error e => .error e
  | .ok _ =>
    match (b.rows.map (coerceRow b.cols)).mapM minutesStep with
    | .error e => .error e
    | .ok rows2 =>
      match requireAll b.cols laterBaseCols with
      | .error e => .error e
      | .ok _ =>
        .ok { cols := derivedCols.foldl addCol b.cols, rows := rows2.map deriveRow }

/-- `calculate_advanced_metrics` (lines 128-217): the `try` body wrapped
in the `except` handler that logs and returns the original input
(lines 215-217). -/
def calculate_advanced_metrics (b : Batch) : Batch :=
  match enrichTry b with
  | .ok out => out
  | .error _ => b

/-- The per-record effect of a successful enrichment: coercion and
zero-fill, the minutes parse (which on a coerced cell is the identity),
then every derived metric. -/
def enrichRow (cols : List String) (r : Row) : Row :=
  deriveRow { coerceRow cols r with minutesPlayed := cellNum (coerceIf cols "MIN" r.min) }

/-- The coerced numeric value the formulas read for column `name`. -/
def coercedVal (cols : List String) (name : String) (c : Cell) : ℚ :=
  cellNum (coerceIf cols name c)

/-- `ts_columns` of `get_player_stats` (lines 245-250). -/
def tsColumns : List String :=
  ["GAME_DATE", "GAME_ID", "FG_PCT", "TS_PCT", "PTS_PER_MIN",
   "PLUS_MINUS", "OFF_RATING", "DEF_RATING", "GAME_SCORE",
   "USG_RATE", "MINUTES_PLAYED", "AST_TO_RATIO"]

/-- Rows compared by `GAME_DATE`, the key of `sort_values` (line 256). -/
def dateLe (a b : Row) : Prop := a.gameDate ≤ b.gameDate

instance : DecidableRel dateLe :=
  fun a b => inferInstanceAs (Decidable (a.gameDate ≤ b.gameDate))

instance : IsTotal Row dateLe := ⟨fun a b => Int.le_total a.gameDate b.gameDate⟩

instance : IsTrans Row dateLe := ⟨fun _ _ _ hab hbc => le_trans hab hbc⟩

instance : Inhabited Row := ⟨{}⟩

/-- The value `v[t[i]]` read during an argsort: `keys` is the fixed value
array and `t` the index permutation being sorted. -/
def keyAt (keys : List Int) (t : List Nat) (i : Nat) : Int :=
  keys.getD (t.getD i 0) 0

/-- Swap two positions of the index list (numpy `INTP_SWAP`). -/
def lswap (t : List Nat) (i j : Nat) : List Nat :=
  let vi := t.getD i 0
  let vj := t.getD j 0
  (t.set i vj).set j vi

/-- Numpy scan `do ++pi; while (v[*pi] < vp)`.  The fuel arguments of
this and the following loops are modelling artifacts: they are always
passed bounds that the C loops, which terminate, never exhaust. -/
def scanUp (keys : List Int) (t : List Nat) (vp : Int) : Nat → Nat → Nat
  | 0, i => i + 1
  | fuel + 1, i =>
    if keyAt keys t (i + 1) < vp then scanUp keys t vp fuel (i + 1) else i + 1

/-- Numpy scan `do --pj; while (vp < v[*pj])`. -/
def scanDown (keys : List Int) (t : List Nat) (vp : Int) : Nat → Nat → Nat
  | 0, j => j - 1
  | fuel + 1, j =>
    if vp < keyAt keys t (j - 1) then scanDown keys t vp fuel (j - 1) else j - 1

/-- The Hoare crossing loop of numpy's quicksort partition: scan from
both ends, swapping out-of-place index pairs (which reorders equal keys)
until the scans cross; returns the final left scan position. -/
def partitionLoop (keys : List Int) (vp : Int) : Nat → List Nat → Nat → Nat → List Nat × Nat
  | 0, t, i, _ => (t, i)
  | fuel + 1, t, i, j =>
    let i2 := scanUp keys t vp (keys.length + 1) i
    let j2 := scanDown keys t vp (keys.length + 1) j
    if j2 ≤ i2 then (t, i2)
    else partitionLoop keys vp fuel (lswap t i2 j2) i2 j2

/-- One numpy quicksort partition of `t[pl..pr]`: median-of-three pivot
selection, pivot parked at `pr - 1`, Hoare scans, pivot swapped to its
final position `pi`. -/
def npPartition (keys : List Int) (t : List Nat) (pl pr : Nat) : List Nat × Nat :=
  let pm := pl + (pr - pl) / 2
  let t1 := if keyAt keys t pm < keyAt keys t pl then lswap t pm pl else t
  let t2 := if keyAt keys t1 pr < keyAt keys t1 pm then lswap t1 pr pm else t1
  let t3 := if keyAt keys t2 pm < keyAt keys t2 pl then lswap t2 pm pl else t2
  let vp := keyAt keys t3 pm
  let t4 := lswap t3 pm (pr - 1)
  match partitionLoop keys vp (keys.length + 1) t4 pl (pr - 1) with
  | (t5, pi) => (lswap t5 pi (pr - 1), pi)

/-- The shifting inner loop of numpy's small-partition insertion sort:
`while (pj > pl && vp < v[*pk]) *pj-- = *pk--`. -/
def insShift (keys : List Int) (vp : Int) (pl : Nat) : Nat → List Nat → Nat → List Nat × Nat
  | 0, t, j => (t, j)
  | fuel + 1, t, j =>
    if pl < j ∧ vp < keyAt keys t (j - 1) then
      insShift keys vp pl fuel (t.set j (t.getD (j - 1) 0)) (j - 1)
    else (t, j)

/-- The outer loop of numpy's stable insertion sort of `t[pl..pr]`. -/
def insSegLoop (keys : List Int) (pl pr : Nat) : Nat → List Nat → Nat → List Nat
  | 0, t, _ => t
  | fuel + 1, t, i =>
    if pr < i then t
    else
      let vi := t.getD i 0
      let vp := keys.getD vi 0
      match insShift keys vp pl (i + 1) t i with
      | (t2, j) => insSegLoop keys pl pr fuel (t2.set j vi) (i + 1)

/-- Numpy's stable insertion sort of the segment `t[pl..pr]`, run on
every partition of at most 16 elements. -/
def insSeg (keys : List Int) (t : List Nat) (pl pr : Nat) : List Nat :=
  insSegLoop keys pl pr (pr + 2 - pl) t (pl + 1)

/-- The driver loop of numpy's introsort-based argsort (`aquicksort`):
partition segments longer than `SMALL_QUICKSORT = 15` elements, pushing
the larger half on an explicit stack, and insertion-sort the small
segments.  The depth-exhaustion heapsort fallback (reached only after
`2·msb(n)` unbalanced partitions) is not modelled: no input considered
here comes near it. -/
def introLoop (keys : List Int) : Nat → List Nat → Nat → Nat → List (Nat × Nat) → List Nat
  | 0, t, _, _, _ => t
  | fuel + 1, t, pl, pr, stack =>
    if 15 < pr - pl then
      match npPartition keys t pl pr with
      | (t2, pi) =>
        if pi - pl < pr - pi then
          introLoop keys fuel t2 pl (pi - 1) ((pi + 1, pr) :: stack)
        else
          introLoop keys fuel t2 (pi + 1) pr ((pl, pi - 1) :: stack)
    else
      let t2 := insSeg keys t pl pr
      match stack with
      | [] => t2
      | (l, r) :: rest => introLoop keys fuel t2 l r rest

/-- Numpy `argsort` with the default `kind='quicksort'` (introsort): a
direct stable insertion sort for arrays of at most 16 elements, the
unstable median-of-three introsort beyond that. -/
def argsortNumpy (keys : List Int) : List Nat :=
  introLoop keys (keys.length * keys.length + 2) (List.range keys.length) 0
    (keys.length - 1) []

/-- `sort_values('GAME_DATE', ascending=False)` (line 256).  Pandas
`nargsort` reverses the data, argsorts it ascending with numpy's default
kind and reverses the resulting index order.  For at most 16 rows the
argsort is numpy's direct insertion sort, and taking by a stable
ascending argsort is the stable ascending sort of the rows — written
here as `List.insertionSort` (stable sorts of the same keyed list
coincide).  Beyond 16 rows it is the unstable introsort `argsortNumpy`,
which reorders equal keys. -/
def sortByDateDesc (rows : List Row) : List Row :=
  if rows.length ≤ 16 then
    (List.insertionSort dateLe rows.reverse).reverse
  else
    ((argsortNumpy (rows.reverse.map (fun r => r.gameDate))).map
      (fun i => rows.reverse.getD i default)).reverse

/-- The projection-and-sort tail of `get_player_stats` (lines 243-259)
applied to a given raw batch — the spec's `deriveTimeSeriesTable`:
enrichment, best-effort intersection with `ts_columns`, then the date
sort, which raises `KeyError` when `GAME_DATE` is not among the
selected columns. -/
def deriveTimeSeriesTable (b : Batch) : Except String Batch :=
  let ps := calculate_advanced_metrics b
  let avail := tsColumns.filter (fun c => ps.cols.contains c)
  if avail.contains "GAME_DATE" then
    .ok { cols := avail, rows := sortByDateDesc ps.rows }
  else .error "KeyError: GAME_DATE"

/-- The full raw game-log schema used by the concrete examples. -/
def exCols : List String :=
  ["GAME_DATE", "GAME_ID", "MIN", "FGM", "FGA", "FG3M", "FG3A", "FTM", "FTA",
   "OREB", "DREB", "REB", "AST", "STL", "BLK", "TOV", "PF", "PTS", "PLUS_MINUS"]

/-- The raw schema with the PF column entirely absent. -/
def exColsNoPF : List String :=
  ["GAME_DATE", "GAME_ID", "MIN", "FGM", "FGA", "FG3M", "FG3A", "FTM", "FTA",
   "OREB", "DREB", "REB", "AST", "STL", "BLK", "TOV", "PTS", "PLUS_MINUS"]

/-- Two records: minutes as the string "32:30" and as the number 15. -/
def exB1 : Batch :=
  ⟨exCols, [{ gameDate := 20240101, min := .str "32:30", pts := .num 25 },
            { gameDate := 20240102, min := .num 15 }]⟩

/-- A batch whose only column is GAME_DATE. -/
def exB2 : Batch := ⟨["GAME_DATE"], [{ gameDate := 5 }]⟩

/-- A batch with every required base column but no GAME_DATE column. -/
def exNoDate : Batch := ⟨requiredCols, [{ gameDate := 20240101, pts := .num 12 }]⟩

/-- One record in a batch whose PF column is entirely absent. -/
def exB3 : Batch :=
  ⟨exColsNoPF,
   [{ gameDate := 20240101, min := Cell.num 30, fgm := Cell.num 10,
      fga := Cell.num 20, pts := Cell.num 25 }]⟩

/-- A record whose PF value is missing (its other stats are concrete). -/
def exRowNoPFVal : Row :=
  { gameDate := 1, min := Cell.num 30, fgm := Cell.num 10, fga := Cell.num 20,
    ftm := Cell.num 4, fta := Cell.num 5, oreb := Cell.num 2, dreb := Cell.num 6,
    ast := Cell.num 5, stl := Cell.num 1, blk := Cell.num 1, tov := Cell.num 2,
    pts := Cell.num 25 }

/-- The missing-PF-value record inside a full-schema batch. -/
def exB3b : Batch := ⟨exCols, [exRowNoPFVal]⟩

/-- A record on which every guarded denominator is zero. -/
def exRowGuards : Row :=
  { gameDate := 2, min := Cell.num 0, fga := Cell.num 0, fta := Cell.num 0,
    oreb := Cell.num 0, tov := Cell.num 0, ast := Cell.num 5 }

/-- A record with zero attempts, rebounds and turnovers: its possessions
estimate is zero and the unguarded usage-rate division is 0 / 0. -/
def exB6 : Batch := ⟨exCols, [{ gameDate := 3, min := Cell.num 12 }]⟩

/-- Zero records under the full schema. -/
def exB7 : Batch := ⟨exCols, []⟩

/-- A batch missing the MIN column (among others). -/
def exB8 : Batch := ⟨["GAME_DATE", "FGA"], [{ gameDate := 7, fga := .num 9 }]⟩

/-- The record of the spec game-score example. -/
def exRow9 : Row :=
  { gameDate := 9, min := Cell.num 35, fgm := Cell.num 10, fga := Cell.num 20,
    ftm := Cell.num 4, fta := Cell.num 5, oreb := Cell.num 2, dreb := Cell.num 6,
    ast := Cell.num 5, stl := Cell.num 1, blk := Cell.num 1, pf := Cell.num 3,
    tov := Cell.num 2, pts := Cell.num 25 }

/-- A record with no offensive rebounds and a nonzero possessions estimate. -/
def exRow10 : Row :=
  { gameDate := 10, oreb := Cell.num 0, fga := Cell.num 10, tov := Cell.num 2,
    fta := Cell.num 5 }


theorem contains_true (cols : List String) (c : String) :
    cols.contains c = true ↔ c ∈ cols := List.elem_iff

theorem contains_false (cols : List String) (c : String) :
    cols.contains c = false ↔ c ∉ cols := by
  simp

theorem fill_toNumeric_num (c : Cell) : ∃ q : ℚ, fillCell (toNumericCell c) = .num q := by
  cases c with
  | num q => exact ⟨q, rfl⟩
  | str s =>
    cases h : parseFloatQ s with
    | none => exact ⟨0, by simp [toNumericCell, h, fillCell]⟩
    | some q => exact ⟨q, by simp [toNumericCell, h, fillCell]⟩
  | nan => exact ⟨0, rfl⟩

theorem minutesStep_coerced (cols : List String) (r : Row)
    (h : cols.contains "MIN" = true) :
    minutesStep (coerceRow cols r)
      = .ok { coerceRow cols r with
              minutesPlayed := cellNum (coerceIf cols "MIN" r.min) } := by
  have hm : "MIN" ∈ cols := (contains_true cols "MIN").mp h
  obtain ⟨q, hq⟩ := fill_toNumeric_num r.min
  have hmin : (coerceRow cols r).min = Cell.num q := by
    simp [coerceRow, coerceIf, hm, hq]
  have hval : cellNum (coerceIf cols "MIN" r.min) = q := by
    simp [coerceIf, hm, hq, cellNum]
  simp [minutesStep, hmin, minutesLambda]
  exact hval.symm

theorem mapM_minutesStep (cols : List String) (h : cols.contains "MIN" = true) :
    ∀ rs : List Row,
      (rs.map (coerceRow cols)).mapM minutesStep
        = .ok (rs.map (fun r => { coerceRow cols r with
            minutesPlayed := cellNum (coerceIf cols "MIN" r.min) })) := by
  intro rs
  induction rs with
  | nil => rfl
  | cons a t ih =>
    simp only [List.map_cons, List.mapM_cons, minutesStep_coerced cols a h, ih]
    rfl

theorem requireAll_ok (cols : List String) :
    ∀ l : List String, (∀ c ∈ l, cols.contains c = true) →
      requireAll cols l = .ok () := by
  intro l
  induction l with
  | nil => intro _; rfl
  | cons c t ih =>
    intro h
    simp only [requireAll]
    rw [if_pos (h c (List.mem_cons_self c t))]
    exact ih (fun d hd => h d (List.mem_cons_of_mem c hd))

theorem requireAll_err (cols : List String) :
    ∀ l : List String, ∀ c ∈ l, cols.contains c = false →
      ∃ e, requireAll cols l = .error e := by
  intro l
  induction l with
  | nil => intro c hc; cases hc
  | cons a t ih =>
    intro c hc hf
    cases ha : cols.contains a with
    | true =>
      rcases List.mem_cons.mp hc with rfl | hct
      · rw [ha] at hf; cases hf
      · obtain ⟨e, he⟩ := ih c hct hf
        refine ⟨e, ?_⟩
        simp only [requireAll]
        rw [if_pos ha, he]
    | false =>
      refine ⟨"KeyError: " ++ a, ?_⟩
      simp only [requireAll]
      rw [if_neg]
      rw [ha]
      simp

theorem calc_success (b : Batch)
    (h : ∀ c ∈ requiredCols, b.cols.contains c = true) :
    calculate_advanced_metrics b
      = { cols := derivedCols.foldl addCol b.cols,
          rows := b.rows.map (enrichRow b.cols) } := by
  have hMIN : b.cols.contains "MIN" = true := h "MIN" (List.mem_cons_self _ _)
  have h1 : requireAll b.cols ["MIN"] = .ok () := by
    simp only [requireAll]
    rw [if_pos hMIN]
  have h2 : requireAll b.cols laterBaseCols = .ok () :=
    requireAll_ok _ _ (fun c hc => h c (List.mem_cons_of_mem _ hc))
  have h3 := mapM_minutesStep b.cols hMIN b.rows
  simp only [calculate_advanced_metrics, enrichTry, h1, h2, h3, List.map_map]
  rfl

theorem contains_addCol (cols : List String) (c d : String)
    (h : cols.contains c = true) : (addCol cols d).contains c = true := by
  have hm : c ∈ cols := (contains_true cols c).mp h
  cases hd : cols.contains d with
  | true =>
    have hdm : d ∈ cols := (contains_true cols d).mp hd
    simpa [addCol, hdm] using hm
  | false =>
    have hdnm : d ∉ cols := (contains_false cols d).mp hd
    have he : addCol cols d = cols ++ [d] := by simp [addCol, hdnm]
    rw [he]
    exact (contains_true _ c).mpr (List.mem_append_left _ hm)

theorem contains_foldl_addCol (l : List String) :
    ∀ cols c, cols.contains c = true → (l.foldl addCol cols).contains c = true := by
  induction l with
  | nil => intro cols c h; exact h
  | cons d t ih =>
    intro cols c h
    exact ih _ _ (contains_addCol cols c d h)

theorem contains_foldl_addCol_self (l : List String) :
    ∀ cols c, c ∈ l → (l.foldl addCol cols).contains c = true := by
  induction l with
  | nil => intro _ c h; cases h
  | cons d t ih =>
    intro cols c h
    rcases List.mem_cons.mp h with rfl | ht
    · show (t.foldl addCol (addCol cols c)).contains c = true
      apply contains_foldl_addCol
      cases hd : cols.contains c with
      | true =>
        have hdm : c ∈ cols := (contains_true cols c).mp hd
        simp [addCol, hdm]
      | false =>
        have hdnm : c ∉ cols := (contains_false cols c).mp hd
        have he : addCol cols c = cols ++ [c] := by simp [addCol, hdnm]
        rw [he]
        exact (contains_true _ c).mpr (List.mem_append_right _ (List.mem_singleton.mpr rfl))
    · exact ih _ _ ht

theorem calc_cols_mono (b : Batch) (c : String) (h : b.cols.contains c = true) :
    (calculate_advanced_metrics b).cols.contains c = true := by
  unfold calculate_advanced_metrics
  cases henr : enrichTry b with
  | error e => exact h
  | ok out =>
    have hcols : out.cols = derivedCols.foldl addCol b.cols := by
      unfold enrichTry at henr
      cases h1 : requireAll b.cols ["MIN"] with
      | error e => rw [h1] at henr; simp at henr
      | ok u =>
        rw [h1] at henr
        cases h2 : (b.rows.map (coerceRow b.cols)).mapM minutesStep with
        | error e => rw [h2] at henr; simp at henr
        | ok rows2 =>
          rw [h2] at henr
          cases h3 : requireAll b.cols laterBaseCols with
          | error e => rw [h3] at henr; simp at henr
          | ok v =>
            rw [h3] at henr
            simp only [Except.ok.injEq] at henr
            rw [← henr]
    rw [hcols]
    exact contains_foldl_addCol _ _ _ h

theorem enrichRow_minutes (cols : List String) (r : Row) :
    (enrichRow cols r).minutesPlayed = coercedVal cols "MIN" r.min := rfl

theorem enrichRow_fgPct (cols : List String) (r : Row) :
    (enrichRow cols r).fgPct
      = if 0 < coercedVal cols "FGA" r.fga
        then coercedVal cols "FGM" r.fgm / coercedVal cols "FGA" r.fga
        else 0 := rfl

theorem enrichRow_tsPct (cols : List String) (r : Row) :
    (enrichRow cols r).tsPct
      = if 0 < coercedVal cols "FGA" r.fga + (0.44 : ℚ) * coercedVal cols "FTA" r.fta
        then coercedVal cols "PTS" r.pts
              / (2 * (coercedVal cols "FGA" r.fga + (0.44 : ℚ) * coercedVal cols "FTA" r.fta))
        else 0 := rfl

theorem enrichRow_ptsPerMin (cols : List String) (r : Row) :
    (enrichRow cols r).ptsPerMin
      = if 0 < coercedVal cols "MIN" r.min
        then coercedVal cols "PTS" r.pts / coercedVal cols "MIN" r.min
        else 0 := rfl

theorem enrichRow_poss (cols : List String) (r : Row) :
    (enrichRow cols r).poss
      = coercedVal cols "FGA" r.fga - coercedVal cols "OREB" r.oreb
        + coercedVal cols "TOV" r.tov + (0.44 : ℚ) * coercedVal cols "FTA" r.fta := rfl

theorem enrichRow_offRating (cols : List String) (r : Row) :
    (enrichRow cols r).offRating
      = if 0 < (enrichRow cols r).poss
        then 100 * (coercedVal cols "PTS" r.pts + (1.5 : ℚ) * coercedVal cols "AST" r.ast)
              / (enrichRow cols r).poss
        else 0 := rfl

theorem enrichRow_defRating (cols : List String) (r : Row) :
    (enrichRow cols r).defRating
      = if 0 < coercedVal cols "MIN" r.min
        then 100 - (5 * (coercedVal cols "STL" r.stl + coercedVal cols "BLK" r.blk)
                      - coercedVal cols "PF" r.pf - coercedVal cols "PLUS_MINUS" r.plusMinus)
                    / coercedVal cols "MIN" r.min
        else 0 := rfl

theorem enrichRow_gameScore (cols : List String) (r : Row) :
    (enrichRow cols r).gameScore
      = coercedVal cols "PTS" r.pts
        + (0.4 : ℚ) * coercedVal cols "FGM" r.fgm
        - (0.7 : ℚ) * coercedVal cols "FGA" r.fga
        - (0.4 : ℚ) * (coercedVal cols "FTA" r.fta - coercedVal cols "FTM" r.ftm)
        + (0.7 : ℚ) * coercedVal cols "OREB" r.oreb
        + (0.3 : ℚ) * coercedVal cols "DREB" r.dreb
        + coercedVal cols "STL" r.stl
        + (0.7 : ℚ) * coercedVal cols "AST" r.ast
        + (0.7 : ℚ) * coercedVal cols "BLK" r.blk
        - (0.4 : ℚ) * coercedVal cols "PF" r.pf
        - coercedVal cols "TOV" r.tov := rfl

theorem enrichRow_usgRate (cols : List String) (r : Row) :
    (enrichRow cols r).usgRate
      = pdiv (100 * (coercedVal cols "FGA" r.fga + (0.44 : ℚ) * coercedVal cols "FTA" r.fta
                      + coercedVal cols "TOV" r.tov))
             ((enrichRow cols r).poss) := rfl

theorem enrichRow_astToRatio (cols : List String) (r : Row) :
    (enrichRow cols r).astToRatio
      = if 0 < coercedVal cols "TOV" r.tov
        then coercedVal cols "AST" r.ast / coercedVal cols "TOV" r.tov
        else coercedVal cols "AST" r.ast := rfl


/-- C1 (code bug): through the coercion-then-parse pipeline a "MM:SS"
minutes string is numerically coerced to NaN and zero-filled before the
minutes lambda runs, so the derived MINUTES_PLAYED is 0, not MM + SS/60;
the lambda itself — the intended parse — does yield 32.5 on "32:30",
and a plain numeric 15 does yield 15.0. -/
theorem minutes_pipeline_zeroes_mmss :
    ((calculate_advanced_metrics exB1).rows.map (fun r => r.minutesPlayed)) = [0, 15]
    ∧ minutesLambda (.str "32:30") = .ok (.num (65 / 2)) := by
  constructor
  · decide
  · have h1 : minutesLambda (.str "32:30") = .ok (.num ((32 : ℚ) + 30 / 60)) := rfl
    rw [h1]
    simp only [Except.ok.injEq, Cell.num.injEq]
    norm_num

/-- C2 counterexample: on a batch without a GAME_DATE column the
projection's sort raises KeyError, which the caller of
deriveTimeSeriesTable sees as a hard failure. -/
theorem derive_raises_without_game_date :
    deriveTimeSeriesTable exNoDate = .error "KeyError: GAME_DATE" := rfl

/-- C2 amended: for every input batch that has its GAME_DATE column, no
error kind is surfaced to the caller of deriveTimeSeriesTable: every
failure degrades (zero-fill, fallback to the original, or empty result)
and a table is returned. -/
theorem derive_total_with_game_date (b : Batch)
    (h : b.cols.contains "GAME_DATE" = true) :
    ∃ out, deriveTimeSeriesTable b = .ok out := by
  have hps := calc_cols_mono b "GAME_DATE" h
  have hmem : "GAME_DATE" ∈ tsColumns.filter
      (fun c => (calculate_advanced_metrics b).cols.contains c) :=
    List.mem_filter.mpr ⟨by simp [tsColumns], hps⟩
  have havail := (contains_true _ "GAME_DATE").mpr hmem
  refine ⟨{ cols := tsColumns.filter (fun c => (calculate_advanced_metrics b).cols.contains c),
            rows := sortByDateDesc (calculate_advanced_metrics b).rows }, ?_⟩
  simp only [deriveTimeSeriesTable]
  rw [if_pos havail]

/-- C2 amended, witness: a concrete batch whose only column is GAME_DATE
(enrichment degrades to the original input, projection succeeds). -/
theorem derive_total_with_game_date_witness :
    ∃ out, deriveTimeSeriesTable exB2 = Except.ok out :=
  derive_total_with_game_date exB2 (by decide)

/-- C3 counterexample: with the PF column entirely absent from the batch
the metric computation raises KeyError, the handler returns the original
input, and no record is enriched (no derived column appears). -/
theorem absent_pf_column_returns_unenriched :
    calculate_advanced_metrics exB3 = exB3
    ∧ (calculate_advanced_metrics exB3).cols.contains "FG_PCT" = false := by decide

/-- C3 amended: when every required base column is present (PF among
them), the whole batch is enriched per record, every derived column is
added, and a record whose PF value is missing (NaN) has PF contribute
exactly 0 to game_score and to defensive_rating; a batch whose PF
column is entirely absent is instead returned unenriched by the
exception fallback. -/
theorem missing_pf_value_still_enriched (b : Batch)
    (hreq : ∀ c ∈ requiredCols, b.cols.contains c = true) :
    ((calculate_advanced_metrics b).rows = b.rows.map (enrichRow b.cols)
      ∧ ∀ c ∈ derivedCols, (calculate_advanced_metrics b).cols.contains c = true)
    ∧ ∀ r : Row, r.pf = Cell.nan →
        (enrichRow b.cols r).gameScore
            = coercedVal b.cols "PTS" r.pts
              + (0.4 : ℚ) * coercedVal b.cols "FGM" r.fgm
              - (0.7 : ℚ) * coercedVal b.cols "FGA" r.fga
              - (0.4 : ℚ) * (coercedVal b.cols "FTA" r.fta - coercedVal b.cols "FTM" r.ftm)
              + (0.7 : ℚ) * coercedVal b.cols "OREB" r.oreb
              + (0.3 : ℚ) * coercedVal b.cols "DREB" r.dreb
              + coercedVal b.cols "STL" r.stl
              + (0.7 : ℚ) * coercedVal b.cols "AST" r.ast
              + (0.7 : ℚ) * coercedVal b.cols "BLK" r.blk
              - (0.4 : ℚ) * 0
              - coercedVal b.cols "TOV" r.tov
        ∧ (enrichRow b.cols r).defRating
            = (if 0 < coercedVal b.cols "MIN" r.min then
                100 - (5 * (coercedVal b.cols "STL" r.stl + coercedVal b.cols "BLK" r.blk)
                        - 0 - coercedVal b.cols "PLUS_MINUS" r.plusMinus)
                      / coercedVal b.cols "MIN" r.min
              else 0) := by
  refine ⟨⟨?_, ?_⟩, ?_⟩
  · rw [calc_success b hreq]
  · intro c hc
    have hcols : (calculate_advanced_metrics b).cols = derivedCols.foldl addCol b.cols := by
      rw [calc_success b hreq]
    rw [hcols]
    exact contains_foldl_addCol_self _ _ _ hc
  · intro r hpf
    have hPF : b.cols.contains "PF" = true := hreq "PF" (by decide)
    have hv : coercedVal b.cols "PF" r.pf = 0 := by
      unfold coercedVal coerceIf
      rw [hpf, if_pos hPF]
      rfl
    constructor
    · rw [enrichRow_gameScore, hv]
    · rw [enrichRow_defRating, hv]

/-- C3 amended, witness: a concrete record with a missing PF value in a
full-schema batch is enriched, with game_score 21 (PF contributing 0). -/
theorem missing_pf_value_still_enriched_witness :
    (calculate_advanced_metrics exB3b).rows = exB3b.rows.map (enrichRow exB3b.cols)
    ∧ (enrichRow exB3b.cols exRowNoPFVal).gameScore = 21 := by
  have h := missing_pf_value_still_enriched exB3b (by decide)
  refine ⟨h.1.1, ?_⟩
  rw [(h.2 exRowNoPFVal rfl).1]
  show (25 : ℚ) + 0.4 * 10 - 0.7 * 20 - 0.4 * (5 - 4) + 0.7 * 2 + 0.3 * 6 + 1
      + 0.7 * 5 + 0.7 * 1 - 0.4 * 0 - 2 = 21
  norm_num

/-- C5: every guarded metric yields exactly its stated fallback when its
guard fails — 0 for field_goal_pct, true_shooting_pct, points_per_minute,
offensive_rating and defensive_rating, and AST for the
assist-to-turnover ratio when TOV = 0; these fields live in ℚ, so no
NaN, infinity or error is possible. -/
theorem guarded_metrics_fallback (cols : List String) (r : Row) :
    (¬ 0 < coercedVal cols "FGA" r.fga → (enrichRow cols r).fgPct = 0)
    ∧ (¬ 0 < coercedVal cols "FGA" r.fga + (0.44 : ℚ) * coercedVal cols "FTA" r.fta →
        (enrichRow cols r).tsPct = 0)
    ∧ (¬ 0 < coercedVal cols "MIN" r.min →
        (enrichRow cols r).ptsPerMin = 0 ∧ (enrichRow cols r).defRating = 0)
    ∧ (¬ 0 < (enrichRow cols r).poss → (enrichRow cols r).offRating = 0)
    ∧ (coercedVal cols "TOV" r.tov = 0 →
        (enrichRow cols r).astToRatio = coercedVal cols "AST" r.ast) := by
  refine ⟨?_, ?_, ?_, ?_, ?_⟩
  · intro hg
    rw [enrichRow_fgPct, if_neg hg]
  · intro hg
    rw [enrichRow_tsPct, if_neg hg]
  · intro hg
    constructor
    · rw [enrichRow_ptsPerMin, if_neg hg]
    · rw [enrichRow_defRating, if_neg hg]
  · intro hg
    rw [enrichRow_offRating, if_neg hg]
  · intro hg
    rw [enrichRow_astToRatio, hg, if_neg (lt_irrefl (0 : ℚ))]

/-- C5 witness: a record with FGA = FTA = MIN = TOV = 0 and AST = 5 gets
0.0 for each guarded ratio and assist_to_turnover_ratio 5.0. -/
theorem guarded_metrics_fallback_witness :
    (enrichRow exCols exRowGuards).fgPct = 0
    ∧ (enrichRow exCols exRowGuards).tsPct = 0
    ∧ (enrichRow exCols exRowGuards).ptsPerMin = 0
    ∧ (enrichRow exCols exRowGuards).defRating = 0
    ∧ (enrichRow exCols exRowGuards).offRating = 0
    ∧ (enrichRow exCols exRowGuards).astToRatio = 5 := by
  have h := guarded_metrics_fallback exCols exRowGuards
  have hposs : ¬ 0 < (enrichRow exCols exRowGuards).poss := by
    rw [enrichRow_poss]
    show ¬ (0 : ℚ) < 0 - 0 + 0 + 0.44 * 0
    norm_num
  have hts : ¬ (0 : ℚ) < coercedVal exCols "FGA" exRowGuards.fga
      + (0.44 : ℚ) * coercedVal exCols "FTA" exRowGuards.fta := by
    show ¬ (0 : ℚ) < 0 + 0.44 * 0
    norm_num
  refine ⟨h.1 ?_, h.2.1 hts, (h.2.2.1 ?_).1, (h.2.2.1 ?_).2, h.2.2.2.1 hposs,
    (h.2.2.2.2 rfl).trans rfl⟩
  · show ¬ (0 : ℚ) < 0
    norm_num
  · show ¬ (0 : ℚ) < 0
    norm_num
  · show ¬ (0 : ℚ) < 0
    norm_num

/-- C6: after a successful whole-batch enrichment every output record's
usage_rate is 100·(FGA + 0.44·FTA + TOV) / possessions_estimate computed
as an unguarded pandas division (so infinite or NaN when the estimate is
zero, negative when it is negative), and possessions_estimate is the
likewise unguarded FGA − OREB + TOV + 0.44·FTA. -/
theorem usage_rate_unguarded (b : Batch)
    (hreq : ∀ c ∈ requiredCols, b.cols.contains c = true) :
    (calculate_advanced_metrics b).rows.map (fun r => r.usgRate)
      = b.rows.map (fun r =>
          pdiv (100 * (coercedVal b.cols "FGA" r.fga
                        + (0.44 : ℚ) * coercedVal b.cols "FTA" r.fta
                        + coercedVal b.cols "TOV" r.tov))
               (coercedVal b.cols "FGA" r.fga - coercedVal b.cols "OREB" r.oreb
                 + coercedVal b.cols "TOV" r.tov
                 + (0.44 : ℚ) * coercedVal b.cols "FTA" r.fta))
    ∧ (calculate_advanced_metrics b).rows.map (fun r => r.poss)
      = b.rows.map (fun r =>
          coercedVal b.cols "FGA" r.fga - coercedVal b.cols "OREB" r.oreb
            + coercedVal b.cols "TOV" r.tov
            + (0.44 : ℚ) * coercedVal b.cols "FTA" r.fta) := by
  have hrows : (calculate_advanced_metrics b).rows = b.rows.map (enrichRow b.cols) := by
    rw [calc_success b hreq]
  constructor
  · rw [hrows, List.map_map]
    rfl
  · rw [hrows, List.map_map]
    rfl

/-- C6 witness: a record with zero attempts, rebounds and turnovers has
possessions_estimate 0 and numerator 0, and the unguarded division
produces NaN. -/
theorem usage_rate_unguarded_witness :
    (calculate_advanced_metrics exB6).rows.map (fun r => r.usgRate) = [PFloat.nan] := by
  rw [(usage_rate_unguarded exB6 (by decide)).1]
  show [pdiv (100 * ((0 : ℚ) + 0.44 * 0 + 0)) ((0 : ℚ) - 0 + 0 + 0.44 * 0)] = [PFloat.nan]
  have hp : pdiv (100 * ((0 : ℚ) + 0.44 * 0 + 0)) ((0 : ℚ) - 0 + 0 + 0.44 * 0)
      = PFloat.nan := by
    unfold pdiv
    norm_num
  rw [hp]

/-- C7: an empty input sequence (zero records, full raw schema) yields an
empty projected table and no exception. -/
theorem empty_input_empty_table :
    deriveTimeSeriesTable exB7 = .ok ⟨tsColumns, []⟩ := rfl

/-- C8: when a required base column is absent, the whole-batch transform
raises, the handler catches it, and the original input is returned
exactly as given — no partially coerced state, no propagated exception. -/
theorem batch_failure_returns_original (b : Batch) (c : String)
    (hc : c ∈ requiredCols) (hmiss : b.cols.contains c = false) :
    calculate_advanced_metrics b = b := by
  cases hMIN : b.cols.contains "MIN" with
  | false =>
    have hne : ¬ b.cols.contains "MIN" = true := by
      rw [hMIN]
      simp
    have h1 : requireAll b.cols ["MIN"] = .error ("KeyError: " ++ "MIN") := by
      simp only [requireAll]
      rw [if_neg hne]
    simp only [calculate_advanced_metrics, enrichTry, h1]
  | true =>
    have hcl : c ∈ laterBaseCols := by
      have hc2 : c ∈ "MIN" :: laterBaseCols := hc
      rcases List.mem_cons.mp hc2 with rfl | h2
      · rw [hMIN] at hmiss; cases hmiss
      · exact h2
    obtain ⟨e, he⟩ := requireAll_err b.cols laterBaseCols c hcl hmiss
    have h1 : requireAll b.cols ["MIN"] = .ok () := by
      simp only [requireAll]
      rw [if_pos hMIN]
    have h3 := mapM_minutesStep b.cols hMIN b.rows
    simp only [calculate_advanced_metrics, enrichTry, h1, h3, he]

/-- C8 witness: a batch missing the MIN column comes back unchanged. -/
theorem batch_failure_returns_original_witness :
    calculate_advanced_metrics exB8 = exB8 :=
  batch_failure_returns_original exB8 "MIN" (by decide) (by decide)

/-- C9 counterexample: on the spec's own example record the game score is
19.8 (= 99/5), not the claimed 20.8 — the spec's term list sums to 19.8. -/
theorem game_score_example_value :
    (enrichRow exCols exRow9).gameScore = 99 / 5
    ∧ ((enrichRow exCols exRow9).gameScore = 104 / 5 → False) := by
  have h : (enrichRow exCols exRow9).gameScore
      = (25 : ℚ) + 0.4 * 10 - 0.7 * 20 - 0.4 * (5 - 4) + 0.7 * 2 + 0.3 * 6 + 1
        + 0.7 * 5 + 0.7 * 1 - 0.4 * 3 - 2 := rfl
  constructor
  · rw [h]
    norm_num
  · intro hbad
    rw [h] at hbad
    norm_num at hbad

/-- C9 amended: game_score is exactly the stated unguarded linear form of
the coerced inputs; on the spec's example record its value is 19.8. -/
theorem game_score_linear (cols : List String) (r : Row) :
    (enrichRow cols r).gameScore
      = coercedVal cols "PTS" r.pts
        + (0.4 : ℚ) * coercedVal cols "FGM" r.fgm
        - (0.7 : ℚ) * coercedVal cols "FGA" r.fga
        - (0.4 : ℚ) * (coercedVal cols "FTA" r.fta - coercedVal cols "FTM" r.ftm)
        + (0.7 : ℚ) * coercedVal cols "OREB" r.oreb
        + (0.3 : ℚ) * coercedVal cols "DREB" r.dreb
        + coercedVal cols "STL" r.stl
        + (0.7 : ℚ) * coercedVal cols "AST" r.ast
        + (0.7 : ℚ) * coercedVal cols "BLK" r.blk
        - (0.4 : ℚ) * coercedVal cols "PF" r.pf
        - coercedVal cols "TOV" r.tov :=
  enrichRow_gameScore cols r

/-- C9 amended, witness: the linear form evaluates to 19.8 on the spec's
example record. -/
theorem game_score_linear_witness :
    (enrichRow exCols exRow9).gameScore = 99 / 5 := by
  rw [game_score_linear exCols exRow9]
  show (25 : ℚ) + 0.4 * 10 - 0.7 * 20 - 0.4 * (5 - 4) + 0.7 * 2 + 0.3 * 6 + 1
      + 0.7 * 5 + 0.7 * 1 - 0.4 * 3 - 2 = 99 / 5
  norm_num

/-- C10: for any record with no offensive rebounds the usage numerator
coincides with the possessions estimate, so whenever the estimate is
nonzero the unguarded usage_rate is exactly the finite constant 100. -/
theorem usage_rate_const_100_when_no_oreb (cols : List String) (r : Row)
    (horeb : coercedVal cols "OREB" r.oreb = 0)
    (hposs : (enrichRow cols r).poss ≠ 0) :
    (enrichRow cols r).usgRate = PFloat.fin 100 := by
  rw [enrichRow_poss, horeb] at hposs
  rw [enrichRow_usgRate, enrichRow_poss, horeb]
  have he : coercedVal cols "FGA" r.fga - 0 + coercedVal cols "TOV" r.tov
        + (0.44 : ℚ) * coercedVal cols "FTA" r.fta
      = coercedVal cols "FGA" r.fga + (0.44 : ℚ) * coercedVal cols "FTA" r.fta
        + coercedVal cols "TOV" r.tov := by
    ring
  rw [he] at hposs ⊢
  unfold pdiv
  rw [if_neg hposs]
  rw [mul_div_assoc, div_self hposs, mul_one]

/-- C10 witness: FGA = 10, TOV = 2, FTA = 5, OREB = 0 gives possessions
estimate 14.2 and usage_rate exactly 100. -/
theorem usage_rate_const_100_when_no_oreb_witness :
    (enrichRow exCols exRow10).usgRate = PFloat.fin 100 := by
  have hposs : (enrichRow exCols exRow10).poss ≠ 0 := by
    rw [enrichRow_poss]
    show (10 : ℚ) - 0 + 2 + 0.44 * 5 ≠ 0
    norm_num
  exact usage_rate_const_100_when_no_oreb exCols exRow10 rfl hposs

end PlayerStats
